import Mathlib

/-!
Verification development for the Artifact Authenticity Scanner
(src/artifact_app.py), a single-script Streamlit app.

Shallow embedding conventions:
- A pixel is a triple of rational channel values in BGR order, matching the
  OpenCV convention used by the script.
- A frame is a list of pixels.  The script calls cv2.resize to shrink each
  sampled frame to a rectangular 64x64 thumbnail and then takes
  small.mean(axis=0).mean(axis=0); on a rectangular array the mean of the
  column means equals the overall pixel mean, so a frame is modelled as a
  flat pixel list and the mean is taken over all its pixels.
- cv2.resize itself is external library code, modelled as an abstract
  function resize : Frame -> Frame passed to analyse_video.  Where a claim
  needs it, we hypothesise that resize produces a nonempty frame with
  channels in the range 0..255, which holds for the real cv2.resize on
  uint8 input with a fixed positive output size.
- The video capture is modelled as a VideoSource: either unopenable
  (cap.isOpened() is false) or an opened, finite list of frames read in
  order by cap.read().
- The two RuntimeError exits of analyse_video become an Except error type.
- Python floats are modelled as rationals; all arithmetic performed by the
  script on the means is exact averaging and comparison.
-/

/-- One pixel, channel order b, g, r as produced by OpenCV. -/
structure Pixel where
  b : ℚ
  g : ℚ
  r : ℚ
  deriving DecidableEq, Repr

/-- A frame is a flat list of pixels. -/
abbrev Frame := List Pixel

/-- Per-channel mean over a list of pixels, as computed by
small.mean(axis=0).mean(axis=0) on a rectangular array, and also by
np.mean(np.array(avg_colors), axis=0) over the accumulated means. -/
def mean_bgr (ps : List Pixel) : Pixel :=
  ⟨(ps.map Pixel.b).sum / ps.length,
   (ps.map Pixel.g).sum / ps.length,
   (ps.map Pixel.r).sum / ps.length⟩

/-- The three colour buckets keyed "red", "blue", "other" in the script. -/
inductive Bucket where
  | red
  | blue
  | other
  deriving DecidableEq, Repr

/-- The three counters of the dict counts = \x7b"red": 0, "blue": 0, "other": 0\x7d. -/
structure Counts where
  red : ℕ
  blue : ℕ
  other : ℕ
  deriving DecidableEq, Repr

/-- Dict lookup counts[k]. -/
def countsGet (c : Counts) : Bucket → ℕ
  | Bucket.red => c.red
  | Bucket.blue => c.blue
  | Bucket.other => c.other

/-- Per-frame classification: the if / elif / else chain on the mean
channels r, g, b of a sampled frame. -/
def classify (m : Pixel) : Bucket :=
  if m.r > m.b ∧ m.r > m.g then Bucket.red
  else if m.b > m.r ∧ m.b > m.g then Bucket.blue
  else Bucket.other

/-- Increment the counter selected by classify, i.e. counts[k] += 1. -/
def bump (c : Counts) : Bucket → Counts
  | Bucket.red => { c with red := c.red + 1 }
  | Bucket.blue => { c with blue := c.blue + 1 }
  | Bucket.other => { c with other := c.other + 1 }

/-- The counter state after the sampling loop has classified every mean in
order, starting from the all-zero dict. -/
def tally (means : List Pixel) : Counts :=
  means.foldl (fun c m => bump c (classify m)) ⟨0, 0, 0⟩

/-- The frames whose index is a multiple of the stride: the body of the
while loop runs the sampling branch exactly when frame_idx % frame_step == 0,
with frame_idx counting reads from 0. -/
def sampledFrames (frames : List Frame) (frame_step : ℕ) : List Frame :=
  (frames.enum.filter (fun p => p.1 % frame_step == 0)).map Prod.snd

/-- Python max(counts, key=lambda k: counts[k]) over the insertion order
red, blue, other: max keeps the current best and replaces it only on a
strictly greater key, so the first bucket attaining the maximum wins. -/
def majority (c : Counts) : Bucket :=
  let best₁ := if c.blue > c.red then Bucket.blue else Bucket.red
  if c.other > countsGet c best₁ then Bucket.other else best₁

/-- The inner decision on the global average colour, taken when the
majority bucket is "other". -/
def avgDecision (avg : Pixel) : String :=
  if avg.r > avg.b ∧ avg.r > avg.g then "REAL (Red tones on average)"
  else if avg.b > avg.r ∧ avg.b > avg.g then "FAKE (Blue tones on average)"
  else "INCONCLUSIVE"

/-- The full decision rule of analyse_video. -/
def decisionOf (c : Counts) (avg : Pixel) : String :=
  match majority c with
  | Bucket.red => "REAL (Red tones dominant)"
  | Bucket.blue => "FAKE (Blue tones dominant)"
  | Bucket.other => avgDecision avg

/-- The two RuntimeError exits of analyse_video. -/
inductive AnalysisError where
  | ioError
  | noData
  deriving DecidableEq, Repr

/-- The message carried by each RuntimeError. -/
def errorMessage : AnalysisError → String
  | AnalysisError.ioError => "Could not open the video file."
  | AnalysisError.noData => "No frames processed. Try a shorter or clearer video."

/-- The dict returned by analyse_video. -/
structure AnalysisResult where
  avg_bgr : Pixel
  counts : Counts
  decision : String
  confidence : ℚ
  deriving DecidableEq, Repr

/-- The video source as seen by analyse_video: cv2.VideoCapture either
fails to open, or yields a finite sequence of frames. -/
inductive VideoSource where
  | unopenable
  | opened (frames : List Frame)
  deriving DecidableEq, Repr

/-- The list avg_colors accumulated by the loop: the mean colour of the
resized version of every sampled frame, in reading order. -/
def sampledMeans (resize : Frame → Frame) (frames : List Frame)
    (frame_step : ℕ) : List Pixel :=
  (sampledFrames frames frame_step).map (fun f => mean_bgr (resize f))

/-- The analyser itself.  resize stands for fun f => cv2.resize f (64, 64);
frame_step defaults to 8 at the single call site.  Mirrors analyse_video
line by line: open-check, sampling loop (expressed over the sampled
frames), empty check, global average, majority decision, confidence. -/
def analyse_video (resize : Frame → Frame) (source : VideoSource)
    (frame_step : ℕ) : Except AnalysisError AnalysisResult :=
  match source with
  | VideoSource.unopenable => Except.error AnalysisError.ioError
  | VideoSource.opened frames =>
      let avg_colors := sampledMeans resize frames frame_step
      if avg_colors.isEmpty then Except.error AnalysisError.noData
      else
        let counts := tally avg_colors
        let avg_bgr := mean_bgr avg_colors
        let m := majority counts
        Except.ok
          { avg_bgr := avg_bgr
            counts := counts
            decision := decisionOf counts avg_bgr
            confidence := (countsGet counts m : ℚ) /
              ((counts.red : ℚ) + counts.blue + counts.other) }

/-!
Spec-side decision rule, for the refinement claim C1.  These definitions
follow the words of the specification, not the source, and are compared
with decisionOf above.
-/

/-- Spec-side winner: the bucket with the highest count, ties broken by the
declared order warm, then cool, then neutral. -/
def specWinner (c : Counts) : Bucket :=
  if c.red ≥ c.blue ∧ c.red ≥ c.other then Bucket.red
  else if c.blue ≥ c.other then Bucket.blue
  else Bucket.other

/-- Spec-side greatest-channel rule on the global average colour: red
strictly greatest gives warm/REAL, blue strictly greatest gives cool/FAKE,
otherwise INCONCLUSIVE. -/
def specAvgDecision (avg : Pixel) : String :=
  if avg.r > avg.b ∧ avg.r > avg.g then "REAL (Red tones on average)"
  else if avg.b > avg.r ∧ avg.b > avg.g then "FAKE (Blue tones on average)"
  else "INCONCLUSIVE"

/-- Spec-side decision: a warm or cool winner yields its decision directly; a
neutral winner is re-evaluated on the global average colour. -/
def specDecision (c : Counts) (avg : Pixel) : String :=
  match specWinner c with
  | Bucket.red => "REAL (Red tones dominant)"
  | Bucket.blue => "FAKE (Blue tones dominant)"
  | Bucket.other => specAvgDecision avg

/-!
Presentation and history layer: the try / except / finally block that
processes an upload, and the gallery display loop.
-/

/-- One gallery entry, the dict appended to st.session_state.gallery.
The colour patch is the solid-colour bitmap filled with the truncated rgb
triple, so it is represented by that triple. -/
structure HistoryEntry where
  filename : String
  decision : String
  confidence : String
  colour_patch : ℤ × ℤ × ℤ
  timestamp : String
  deriving DecidableEq, Repr

/-- Python int() on a rational: truncation toward zero. -/
def pyInt (q : ℚ) : ℤ := q.num.tdiv q.den

/-- The dict appended to st.session_state.gallery for a successful
analysis: filename, decision, formatted confidence, the solid-colour patch
built from the truncated rgb channels, and the timestamp. -/
def mkEntry (fmt : ℚ → String) (result : AnalysisResult)
    (filename timestamp : String) : HistoryEntry :=
  { filename := filename
    decision := result.decision
    confidence := fmt result.confidence
    colour_patch :=
      (pyInt result.avg_bgr.r, pyInt result.avg_bgr.g, pyInt result.avg_bgr.b)
    timestamp := timestamp }

/-- The upload handler: given the current gallery, the outcome of
analyse_video on the temporary file, the filename of the upload, the current
timestamp, and the float formatter used for the confidence string, return
the new gallery together with the error message shown by st.error, if any.
On success the entry is appended; on any exception the gallery is left
untouched and the message is surfaced. -/
def handleUpload (fmt : ℚ → String) (gallery : List HistoryEntry)
    (outcome : Except AnalysisError AnalysisResult)
    (filename timestamp : String) : List HistoryEntry × Option String :=
  match outcome with
  | Except.error e => (gallery, some ("An error occurred: " ++ errorMessage e))
  | Except.ok result =>
      (gallery ++ [mkEntry fmt result filename timestamp], none)

/-- The gallery display loop iterates reversed(st.session_state.gallery),
newest first. -/
def displayedGallery (gallery : List HistoryEntry) : List HistoryEntry :=
  gallery.reverse

/-- All channels of a pixel lie in the byte range 0 to 255, the range of
every uint8 frame handled by the script. -/
def pixelInRange (p : Pixel) : Prop :=
  0 ≤ p.b ∧ p.b ≤ 255 ∧ 0 ≤ p.g ∧ p.g ≤ 255 ∧ 0 ≤ p.r ∧ p.r ≤ 255

instance (p : Pixel) : Decidable (pixelInRange p) := by
  unfold pixelInRange
  infer_instance

/-!
Basic lemmas about the embedded definitions.
-/

deriving instance DecidableEq for Except

/-- The boolean test classify m == red agrees with the strict red-greatest
condition. -/
theorem classify_beq_red (m : Pixel) :
    (classify m == Bucket.red) = decide (m.r > m.b ∧ m.r > m.g) := by
  unfold classify
  split_ifs with h1 h2 <;> simp [h1]

/-- The boolean test classify m == blue agrees with the strict
blue-greatest condition: the elif guard is redundant because the two
strict conditions are mutually exclusive. -/
theorem classify_beq_blue (m : Pixel) :
    (classify m == Bucket.blue) = decide (m.b > m.r ∧ m.b > m.g) := by
  unfold classify
  split_ifs with h1 h2
  · have : ¬ m.b > m.r := lt_asymm h1.1
    simp [this]
  · simp [h2]
  · simp [h2]

/-- The boolean test classify m == other holds exactly when neither strict
condition does. -/
theorem classify_beq_other (m : Pixel) :
    (classify m == Bucket.other) =
      decide (¬(m.r > m.b ∧ m.r > m.g) ∧ ¬(m.b > m.r ∧ m.b > m.g)) := by
  unfold classify
  split_ifs with h1 h2
  · simp [h1]
  · simp [h2]
  · simp [h1, h2]

/-- Unfolding the counting loop from an arbitrary starting state. -/
theorem foldl_bump_eq (l : List Pixel) (c : Counts) :
    l.foldl (fun acc m => bump acc (classify m)) c =
      ⟨c.red + l.countP (fun m => classify m == Bucket.red),
       c.blue + l.countP (fun m => classify m == Bucket.blue),
       c.other + l.countP (fun m => classify m == Bucket.other)⟩ := by
  induction l generalizing c with
  | nil => simp
  | cons m t ih =>
      rw [List.foldl_cons, ih]
      rcases hm : classify m <;>
        simp [bump, List.countP_cons, hm] <;> omega

/-- The red counter counts the sampled means with red strictly greatest. -/
theorem tally_red (l : List Pixel) :
    (tally l).red = l.countP (fun m => decide (m.r > m.b ∧ m.r > m.g)) := by
  rw [tally, foldl_bump_eq]
  simp only [Nat.zero_add]
  exact List.countP_congr (fun m _ => by rw [classify_beq_red])

/-- The blue counter counts the sampled means with blue strictly greatest. -/
theorem tally_blue (l : List Pixel) :
    (tally l).blue = l.countP (fun m => decide (m.b > m.r ∧ m.b > m.g)) := by
  rw [tally, foldl_bump_eq]
  simp only [Nat.zero_add]
  exact List.countP_congr (fun m _ => by rw [classify_beq_blue])

/-- The other counter counts the sampled means with neither channel
strictly greatest. -/
theorem tally_other (l : List Pixel) :
    (tally l).other = l.countP
      (fun m => decide (¬(m.r > m.b ∧ m.r > m.g) ∧ ¬(m.b > m.r ∧ m.b > m.g))) := by
  rw [tally, foldl_bump_eq]
  simp only [Nat.zero_add]
  exact List.countP_congr (fun m _ => by rw [classify_beq_other])

/-- Exactly one counter is bumped per classified mean, so the three
counters sum to the number of means. -/
theorem tally_sum (l : List Pixel) :
    (tally l).red + (tally l).blue + (tally l).other = l.length := by
  rw [tally, foldl_bump_eq]
  simp only [Nat.zero_add]
  induction l with
  | nil => simp
  | cons m t ih =>
      rcases hm : classify m <;>
        simp [List.countP_cons, hm] <;> omega

/-- The stable Python max picks a bucket attaining the maximum count. -/
theorem countsGet_majority (c : Counts) :
    countsGet c (majority c) = max c.red (max c.blue c.other) := by
  unfold majority
  by_cases h1 : c.blue > c.red <;> by_cases h2 : c.other > c.red <;>
    by_cases h3 : c.other > c.blue <;>
      simp [h1, h2, h3, countsGet] <;> omega

/-- The count of the stable-max bucket bounds every individual count. -/
theorem countsGet_majority_ge (c : Counts) (bk : Bucket) :
    countsGet c bk ≤ countsGet c (majority c) := by
  rw [countsGet_majority]
  cases bk <;> simp only [countsGet] <;> omega

/-- The stable Python max over the declared key order red, blue, other
agrees with the spec-side first-maximum selection. -/
theorem majority_eq_specWinner (c : Counts) :
    majority c = specWinner c := by
  unfold majority specWinner
  by_cases h1 : c.blue > c.red
  · rw [if_pos h1]
    simp only [countsGet]
    by_cases h3 : c.other > c.blue
    · rw [if_pos h3, if_neg (by omega), if_neg (by omega)]
    · rw [if_neg h3, if_neg (by omega), if_pos (by omega)]
  · rw [if_neg h1]
    simp only [countsGet]
    by_cases h2 : c.other > c.red
    · rw [if_pos h2, if_neg (by omega), if_neg (by omega)]
    · rw [if_neg h2, if_pos (by omega)]

/-- The decision computed by the script agrees with the decision rule as
worded in the specification. -/
theorem decisionOf_eq_specDecision (c : Counts) (avg : Pixel) :
    decisionOf c avg = specDecision c avg := by
  unfold decisionOf specDecision specAvgDecision avgDecision
  rw [majority_eq_specWinner]

/-- Sampling selects a subsequence of the read frames. -/
theorem sampledFrames_sublist (frames : List Frame) (step : ℕ) :
    (sampledFrames frames step).Sublist frames := by
  unfold sampledFrames
  have h1 : (frames.enum.filter (fun p => p.1 % step == 0)).Sublist frames.enum :=
    List.filter_sublist _
  have h2 := h1.map Prod.snd
  rwa [List.enum_map_snd] at h2

/-- The first read frame has index 0, which is a multiple of every stride,
so it is always sampled. -/
theorem sampledFrames_cons (f : Frame) (fs : List Frame) (step : ℕ) :
    ∃ rest, sampledFrames (f :: fs) step = f :: rest := by
  unfold sampledFrames
  rw [List.enum_cons]
  simp [Nat.zero_mod]

/-- A mean of rationals that all lie in an interval lies in the interval. -/
theorem mean_mem_interval (l : List ℚ) (a b : ℚ) (hne : l ≠ [])
    (h : ∀ x ∈ l, a ≤ x ∧ x ≤ b) :
    a ≤ l.sum / l.length ∧ l.sum / l.length ≤ b := by
  have hlen : 0 < l.length := List.length_pos.mpr hne
  have hlenQ : (0 : ℚ) < (l.length : ℚ) := by exact_mod_cast hlen
  constructor
  · rw [le_div_iff₀ hlenQ]
    have := List.card_nsmul_le_sum l a (fun x hx => (h x hx).1)
    rwa [nsmul_eq_mul, mul_comm] at this
  · rw [div_le_iff₀ hlenQ]
    have := List.sum_le_card_nsmul l b (fun x hx => (h x hx).2)
    rwa [nsmul_eq_mul, mul_comm] at this

/-- Unfolding a successful run of the analyser over an opened source. -/
theorem analyse_video_opened_eq (resize : Frame → Frame) (frames : List Frame)
    (step : ℕ) (hM : sampledMeans resize frames step ≠ []) :
    analyse_video resize (VideoSource.opened frames) step =
      Except.ok
        { avg_bgr := mean_bgr (sampledMeans resize frames step)
          counts := tally (sampledMeans resize frames step)
          decision := decisionOf (tally (sampledMeans resize frames step))
            (mean_bgr (sampledMeans resize frames step))
          confidence :=
            (countsGet (tally (sampledMeans resize frames step))
              (majority (tally (sampledMeans resize frames step))) : ℚ) /
            (((tally (sampledMeans resize frames step)).red : ℚ) +
              (tally (sampledMeans resize frames step)).blue +
              (tally (sampledMeans resize frames step)).other) } := by
  have hemp : (sampledMeans resize frames step).isEmpty = false := by
    simpa [List.isEmpty_iff] using hM
  simp [analyse_video, hemp]

/-- Inversion: a successful run determines every field of the result. -/
theorem analyse_video_ok_inv (resize : Frame → Frame) (frames : List Frame)
    (step : ℕ) (res : AnalysisResult)
    (h : analyse_video resize (VideoSource.opened frames) step = Except.ok res) :
    sampledMeans resize frames step ≠ [] ∧
      res =
        { avg_bgr := mean_bgr (sampledMeans resize frames step)
          counts := tally (sampledMeans resize frames step)
          decision := decisionOf (tally (sampledMeans resize frames step))
            (mean_bgr (sampledMeans resize frames step))
          confidence :=
            (countsGet (tally (sampledMeans resize frames step))
              (majority (tally (sampledMeans resize frames step))) : ℚ) /
            (((tally (sampledMeans resize frames step)).red : ℚ) +
              (tally (sampledMeans resize frames step)).blue +
              (tally (sampledMeans resize frames step)).other) } := by
  by_cases hM : sampledMeans resize frames step = []
  · exfalso
    have hemp : (sampledMeans resize frames step).isEmpty = true := by
      simpa [List.isEmpty_iff] using hM
    simp [analyse_video, hemp] at h
  · refine ⟨hM, ?_⟩
    rw [analyse_video_opened_eq resize frames step hM] at h
    exact (Except.ok.inj h).symm

/-- A successful run can only come from an opened source. -/
theorem analyse_video_ok_opened (resize : Frame → Frame) (source : VideoSource)
    (step : ℕ) (res : AnalysisResult)
    (h : analyse_video resize source step = Except.ok res) :
    ∃ frames, source = VideoSource.opened frames := by
  cases source with
  | unopenable => simp [analyse_video] at h
  | opened frames => exact ⟨frames, rfl⟩

/-- The channel-wise mean of nonempty in-range pixels is in range. -/
theorem mean_bgr_range (ps : List Pixel) (hne : ps ≠ [])
    (h : ∀ p ∈ ps, pixelInRange p) : pixelInRange (mean_bgr ps) := by
  have hb := mean_mem_interval (ps.map Pixel.b) 0 255 (by simpa using hne)
    (by intro x hx
        obtain ⟨p, hp, rfl⟩ := List.mem_map.mp hx
        exact ⟨(h p hp).1, (h p hp).2.1⟩)
  have hg := mean_mem_interval (ps.map Pixel.g) 0 255 (by simpa using hne)
    (by intro x hx
        obtain ⟨p, hp, rfl⟩ := List.mem_map.mp hx
        exact ⟨(h p hp).2.2.1, (h p hp).2.2.2.1⟩)
  have hr := mean_mem_interval (ps.map Pixel.r) 0 255 (by simpa using hne)
    (by intro x hx
        obtain ⟨p, hp, rfl⟩ := List.mem_map.mp hx
        exact ⟨(h p hp).2.2.2.2.1, (h p hp).2.2.2.2.2⟩)
  rw [List.length_map] at hb hg hr
  exact ⟨hb.1, hb.2, hg.1, hg.2, hr.1, hr.2⟩

/-!
Claim theorems.
-/

/-- C1: For every successful analysis, the decision is derived from the
bucket with the highest count, ties broken by the fixed order warm, cool,
neutral; a neutral winner is re-evaluated on the global average colour by
the strictly-greatest-channel rule (red greatest gives warm/REAL, blue
greatest gives cool/FAKE, otherwise INCONCLUSIVE); a warm or cool winner
yields its decision directly.  Stated as agreement of the decision of the
code with the spec-side decision function. -/
theorem C1_decision_matches_spec (resize : Frame → Frame)
    (source : VideoSource) (step : ℕ) (res : AnalysisResult)
    (h : analyse_video resize source step = Except.ok res) :
    res.decision = specDecision res.counts res.avg_bgr := by
  obtain ⟨frames, rfl⟩ := analyse_video_ok_opened resize source step res h
  obtain ⟨hM, rfl⟩ := analyse_video_ok_inv resize frames step res h
  exact decisionOf_eq_specDecision _ _

/-- Witness for C1: a one-frame solid-red video, analysed concretely. -/
theorem C1_witness :
    analyse_video (fun f => f) (VideoSource.opened [[⟨0, 0, 1⟩]]) 8 =
      Except.ok { avg_bgr := ⟨0, 0, 1⟩, counts := ⟨1, 0, 0⟩,
                  decision := "REAL (Red tones dominant)", confidence := 1 } ∧
    ({ avg_bgr := ⟨0, 0, 1⟩, counts := ⟨1, 0, 0⟩,
       decision := "REAL (Red tones dominant)", confidence := 1 } :
      AnalysisResult).decision = specDecision ⟨1, 0, 0⟩ ⟨0, 0, 1⟩ := by
  constructor
  · with_unfolding_all decide
  · exact C1_decision_matches_spec (fun f => f)
      (VideoSource.opened [[⟨0, 0, 1⟩]]) 8 _ (by with_unfolding_all decide)

/-- Counterexample to C2: a three-frame video with one warm, one cool and
one neutral frame ties all three buckets at 1, yet the decision is the
warm one taken directly from the tie order, not the result of the
average-colour tie-break, which at this average colour (r not strictly
greater than b) would have produced INCONCLUSIVE. -/
theorem C2_counterexample :
    analyse_video (fun f => f)
        (VideoSource.opened [[⟨0, 0, 1⟩], [⟨1, 0, 0⟩], [⟨0, 0, 0⟩]]) 1 =
      Except.ok { avg_bgr := ⟨1/3, 0, 1/3⟩, counts := ⟨1, 1, 1⟩,
                  decision := "REAL (Red tones dominant)", confidence := 1/3 } ∧
    avgDecision ⟨1/3, 0, 1/3⟩ = "INCONCLUSIVE" ∧
    "REAL (Red tones dominant)" ≠ "INCONCLUSIVE" := by
  refine ⟨?_, ?_, ?_⟩
  · with_unfolding_all decide
  · with_unfolding_all decide
  · decide

/-- C2 (amended): when the three bucket counts are all equal the decision
is the warm one, REAL (Red tones dominant), taken directly from the
warm-first tie order; the average-colour tie-break runs only when the
neutral bucket strictly beats both warm and cool, and in that case exactly
equal average channel values give INCONCLUSIVE. -/
theorem C2_amended_ties (resize : Frame → Frame) (source : VideoSource)
    (step : ℕ) (res : AnalysisResult)
    (h : analyse_video resize source step = Except.ok res) :
    (res.counts.red = res.counts.blue → res.counts.blue = res.counts.other →
      res.decision = "REAL (Red tones dominant)") ∧
    (res.counts.other > res.counts.red → res.counts.other > res.counts.blue →
      res.avg_bgr.b = res.avg_bgr.g → res.avg_bgr.g = res.avg_bgr.r →
      res.decision = "INCONCLUSIVE") := by
  obtain ⟨frames, rfl⟩ := analyse_video_ok_opened resize source step res h
  obtain ⟨hM, rfl⟩ := analyse_video_ok_inv resize frames step res h
  dsimp only
  constructor
  · intro h1 h2
    have hmaj : majority (tally (sampledMeans resize frames step)) = Bucket.red := by
      rw [majority_eq_specWinner]
      unfold specWinner
      rw [if_pos ⟨by omega, by omega⟩]
    simp [decisionOf, hmaj]
  · intro ho1 ho2 he1 he2
    have hmaj : majority (tally (sampledMeans resize frames step)) = Bucket.other := by
      rw [majority_eq_specWinner]
      unfold specWinner
      rw [if_neg (by omega), if_neg (by omega)]
    have havg := he1.trans he2
    simp only [decisionOf, hmaj]
    unfold avgDecision
    rw [if_neg (fun hc => absurd hc.2 (by rw [he2]; exact lt_irrefl _)),
        if_neg (fun hc => absurd hc.1 (by rw [havg]; exact lt_irrefl _))]

/-- Witness for the amended C2, at the all-tie three-frame video. -/
theorem C2_amended_witness :
    ({ avg_bgr := ⟨1/3, 0, 1/3⟩, counts := ⟨1, 1, 1⟩,
       decision := "REAL (Red tones dominant)", confidence := 1/3 } :
      AnalysisResult).decision = "REAL (Red tones dominant)" := by
  exact (C2_amended_ties (fun f => f)
    (VideoSource.opened [[⟨0, 0, 1⟩], [⟨1, 0, 0⟩], [⟨0, 0, 0⟩]]) 1 _
    (by with_unfolding_all decide)).1 rfl rfl

/-- C3: every sampled frame is classified into exactly one bucket: warm
when its mean red channel is strictly greater than both the blue and
green means, cool when its mean blue channel is strictly greater than
both the red and green means, and neutral otherwise; each counter counts
exactly its matching frames and the three counters exhaust the sampled
frames. -/
theorem C3_bucket_counts (resize : Frame → Frame) (frames : List Frame)
    (step : ℕ) (res : AnalysisResult)
    (h : analyse_video resize (VideoSource.opened frames) step = Except.ok res) :
    res.counts.red = (sampledMeans resize frames step).countP
        (fun m => decide (m.r > m.b ∧ m.r > m.g)) ∧
    res.counts.blue = (sampledMeans resize frames step).countP
        (fun m => decide (m.b > m.r ∧ m.b > m.g)) ∧
    res.counts.other = (sampledMeans resize frames step).countP
        (fun m => decide (¬(m.r > m.b ∧ m.r > m.g) ∧ ¬(m.b > m.r ∧ m.b > m.g))) ∧
    res.counts.red + res.counts.blue + res.counts.other =
      (sampledFrames frames step).length := by
  obtain ⟨hM, rfl⟩ := analyse_video_ok_inv resize frames step res h
  dsimp only
  refine ⟨tally_red _, tally_blue _, tally_other _, ?_⟩
  rw [tally_sum]
  simp [sampledMeans]

/-- Witness for C3 at a three-frame video with one frame per bucket. -/
theorem C3_witness :
    (1 : ℕ) = (sampledMeans (fun f => f)
        [[⟨0, 0, 1⟩], [⟨1, 0, 0⟩], [⟨0, 0, 0⟩]] 1).countP
        (fun m => decide (m.r > m.b ∧ m.r > m.g)) ∧
    (1 : ℕ) = (sampledMeans (fun f => f)
        [[⟨0, 0, 1⟩], [⟨1, 0, 0⟩], [⟨0, 0, 0⟩]] 1).countP
        (fun m => decide (m.b > m.r ∧ m.b > m.g)) ∧
    (1 : ℕ) = (sampledMeans (fun f => f)
        [[⟨0, 0, 1⟩], [⟨1, 0, 0⟩], [⟨0, 0, 0⟩]] 1).countP
        (fun m => decide (¬(m.r > m.b ∧ m.r > m.g) ∧ ¬(m.b > m.r ∧ m.b > m.g))) ∧
    (1 : ℕ) + 1 + 1 = (sampledFrames [[⟨0, 0, 1⟩], [⟨1, 0, 0⟩], [⟨0, 0, 0⟩]] 1).length := by
  exact C3_bucket_counts (fun f => f) [[⟨0, 0, 1⟩], [⟨1, 0, 0⟩], [⟨0, 0, 0⟩]] 1
    { avg_bgr := ⟨1/3, 0, 1/3⟩, counts := ⟨1, 1, 1⟩,
      decision := "REAL (Red tones dominant)", confidence := 1/3 }
    (by with_unfolding_all decide)

/-- C4: for every successful analysis the confidence is the winning
bucket count, which is the maximum of the three counts, divided by the
total number of sampled frames, and the counts sum to that total, which
is positive. -/
theorem C4_confidence_formula (resize : Frame → Frame) (frames : List Frame)
    (step : ℕ) (res : AnalysisResult)
    (h : analyse_video resize (VideoSource.opened frames) step = Except.ok res) :
    0 < (sampledFrames frames step).length ∧
    res.counts.red + res.counts.blue + res.counts.other =
      (sampledFrames frames step).length ∧
    res.confidence =
      (max res.counts.red (max res.counts.blue res.counts.other) : ℚ) /
        ((sampledFrames frames step).length : ℚ) := by
  obtain ⟨hM, rfl⟩ := analyse_video_ok_inv resize frames step res h
  dsimp only
  have hsum : (tally (sampledMeans resize frames step)).red +
      (tally (sampledMeans resize frames step)).blue +
      (tally (sampledMeans resize frames step)).other =
      (sampledFrames frames step).length := by
    rw [tally_sum]
    simp [sampledMeans]
  have hsne : sampledFrames frames step ≠ [] := by
    intro hnil
    exact hM (by simp [sampledMeans, hnil])
  have hlen : 0 < (sampledFrames frames step).length :=
    List.length_pos.mpr hsne
  refine ⟨hlen, hsum, ?_⟩
  rw [countsGet_majority]
  have hden : (((tally (sampledMeans resize frames step)).red : ℚ) +
      (tally (sampledMeans resize frames step)).blue +
      (tally (sampledMeans resize frames step)).other) =
      ((sampledFrames frames step).length : ℚ) := by
    exact_mod_cast hsum
  rw [hden]
  norm_cast

/-- Witness for C4 at a two-frame video with stride 1. -/
theorem C4_witness :
    0 < (sampledFrames [[⟨0, 0, 1⟩], [⟨0, 0, 2⟩]] 1).length ∧
    (2 : ℕ) + 0 + 0 = (sampledFrames [[⟨0, 0, 1⟩], [⟨0, 0, 2⟩]] 1).length ∧
    ((1 : ℚ)) = (max 2 (max 0 0) : ℕ) /
      ((sampledFrames [[⟨0, 0, 1⟩], [⟨0, 0, 2⟩]] 1).length : ℚ) := by
  exact C4_confidence_formula (fun f => f) [[⟨0, 0, 1⟩], [⟨0, 0, 2⟩]] 1
    { avg_bgr := ⟨0, 0, 3/2⟩, counts := ⟨2, 0, 0⟩,
      decision := "REAL (Red tones dominant)", confidence := 1 }
    (by with_unfolding_all decide)

/-- C5: on every successful analysis the bucket counts sum exactly to the
number of sampled frames, the confidence lies in the closed interval from
0 to 1, and every channel of the average colour lies in the byte range,
given that the input frames are in the byte range and that resizing a
byte-range frame gives a nonempty byte-range frame (true of cv2.resize on
uint8 data with the fixed 64x64 output size). -/
theorem C5_result_invariants (resize : Frame → Frame) (frames : List Frame)
    (step : ℕ) (res : AnalysisResult)
    (hframes : ∀ f ∈ frames, ∀ p ∈ f, pixelInRange p)
    (hresize : ∀ f, (∀ p ∈ f, pixelInRange p) →
      resize f ≠ [] ∧ ∀ p ∈ resize f, pixelInRange p)
    (h : analyse_video resize (VideoSource.opened frames) step = Except.ok res) :
    res.counts.red + res.counts.blue + res.counts.other =
      (sampledFrames frames step).length ∧
    0 ≤ res.confidence ∧ res.confidence ≤ 1 ∧
    pixelInRange res.avg_bgr := by
  obtain ⟨hM, rfl⟩ := analyse_video_ok_inv resize frames step res h
  dsimp only
  have hsum : (tally (sampledMeans resize frames step)).red +
      (tally (sampledMeans resize frames step)).blue +
      (tally (sampledMeans resize frames step)).other =
      (sampledFrames frames step).length := by
    rw [tally_sum]
    simp [sampledMeans]
  refine ⟨hsum, ?_, ?_, ?_⟩
  · apply div_nonneg (by positivity)
    positivity
  · have hsne : sampledFrames frames step ≠ [] := by
      intro hnil
      exact hM (by simp [sampledMeans, hnil])
    have hpos : 0 < (tally (sampledMeans resize frames step)).red +
        (tally (sampledMeans resize frames step)).blue +
        (tally (sampledMeans resize frames step)).other := by
      rw [hsum]
      exact List.length_pos.mpr hsne
    rw [div_le_one (by exact_mod_cast hpos)]
    have hle : countsGet (tally (sampledMeans resize frames step))
        (majority (tally (sampledMeans resize frames step))) ≤
        (tally (sampledMeans resize frames step)).red +
        (tally (sampledMeans resize frames step)).blue +
        (tally (sampledMeans resize frames step)).other := by
      rw [countsGet_majority]
      omega
    exact_mod_cast hle
  · apply mean_bgr_range _ hM
    intro m hm
    obtain ⟨f, hf, rfl⟩ := List.mem_map.mp hm
    have hfin : ∀ p ∈ f, pixelInRange p :=
      hframes f ((sampledFrames_sublist frames step).subset hf)
    obtain ⟨hne, hall⟩ := hresize f hfin
    exact mean_bgr_range _ hne hall

/-- Witness for C5: a constant resize to a single in-range pixel. -/
theorem C5_witness :
    (1 : ℕ) + 0 + 0 = (sampledFrames [[⟨0, 0, 200⟩]] 8).length ∧
    (0 : ℚ) ≤ 1 ∧ (1 : ℚ) ≤ 1 ∧
    pixelInRange ⟨0, 0, 200⟩ := by
  exact C5_result_invariants (fun _ => [⟨0, 0, 200⟩]) [[⟨0, 0, 200⟩]] 8
    { avg_bgr := ⟨0, 0, 200⟩, counts := ⟨1, 0, 0⟩,
      decision := "REAL (Red tones dominant)", confidence := 1 }
    (by with_unfolding_all decide)
    (by
      intro f _
      refine ⟨by simp, ?_⟩
      intro p hp
      rw [List.mem_singleton] at hp
      subst hp
      with_unfolding_all decide)
    (by with_unfolding_all decide)

/-- C6: the analyser fails with the IOError-kind condition exactly when
the source cannot be opened, fails with the NoData-kind condition exactly
when the opened source yields zero sampled frames, and returns a result
in every other case. -/
theorem C6_error_conditions (resize : Frame → Frame) (source : VideoSource)
    (step : ℕ) :
    (analyse_video resize source step = Except.error AnalysisError.ioError ↔
      source = VideoSource.unopenable) ∧
    (analyse_video resize source step = Except.error AnalysisError.noData ↔
      ∃ frames, source = VideoSource.opened frames ∧
        sampledFrames frames step = []) ∧
    ((source ≠ VideoSource.unopenable ∧
      ∀ frames, source = VideoSource.opened frames →
        sampledFrames frames step ≠ []) →
      ∃ r, analyse_video resize source step = Except.ok r) := by
  cases source with
  | unopenable =>
      refine ⟨by simp [analyse_video], by simp [analyse_video], ?_⟩
      intro hc
      exact absurd rfl hc.1
  | opened frames =>
      by_cases hs : sampledFrames frames step = []
      · have hM : sampledMeans resize frames step = [] := by
          simp [sampledMeans, hs]
        have hemp : (sampledMeans resize frames step).isEmpty = true := by
          simpa [List.isEmpty_iff] using hM
        refine ⟨by simp [analyse_video, hemp], ?_, ?_⟩
        · simp only [analyse_video, hemp, if_true]
          constructor
          · intro _
            exact ⟨frames, rfl, hs⟩
          · intro _
            trivial
        · intro hc
          exact absurd hs (hc.2 frames rfl)
      · have hM : sampledMeans resize frames step ≠ [] := by
          simp [sampledMeans, hs]
        rw [analyse_video_opened_eq resize frames step hM]
        refine ⟨by simp, ?_, fun _ => ⟨_, rfl⟩⟩
        constructor
        · intro hc
          exact absurd hc (by simp)
        · rintro ⟨frames2, heq, hs2⟩
          injection heq with heq2
          subst heq2
          exact absurd hs2 hs

/-- Witness for C6 at an unopenable source. -/
theorem C6_witness :
    analyse_video (fun f => f) VideoSource.unopenable 8 =
      Except.error AnalysisError.ioError :=
  (C6_error_conditions (fun f => f) VideoSource.unopenable 8).1.mpr rfl

/-- C7: on every failure raised by the analyser, the handler surfaces the
message of the failure and leaves the gallery untouched: no entry is
appended on the error path. -/
theorem C7_failure_preserves_gallery (fmt : ℚ → String)
    (gallery : List HistoryEntry) (e : AnalysisError)
    (filename timestamp : String) :
    handleUpload fmt gallery (Except.error e) filename timestamp =
      (gallery, some ("An error occurred: " ++ errorMessage e)) := rfl

/-- C8: after analysing video A then video B successfully, the displayed
gallery shows the entry of B, then the entry of A, then the previous
entries; and every handler call only ever appends to the gallery. -/
theorem C8_gallery_newest_first (fmt : ℚ → String) (g : List HistoryEntry)
    (resA resB : AnalysisResult) (fnA fnB tsA tsB : String) :
    displayedGallery
        ((handleUpload fmt
          ((handleUpload fmt g (Except.ok resA) fnA tsA).1)
          (Except.ok resB) fnB tsB).1) =
      mkEntry fmt resB fnB tsB :: mkEntry fmt resA fnA tsA ::
        displayedGallery g ∧
    (∀ gallery outcome filename timestamp,
      ∃ suffix,
        (handleUpload fmt gallery outcome filename timestamp).1 =
          gallery ++ suffix) := by
  constructor
  · simp [handleUpload, displayedGallery]
  · intro gallery outcome filename timestamp
    cases outcome with
    | error e => exact ⟨[], by simp [handleUpload]⟩
    | ok r => exact ⟨[mkEntry fmt r filename timestamp], rfl⟩

/-- C9: when the source opens and yields at least one frame, the
NoData-kind failure is unreachable for any stride of at least 1, because
frame index 0 is a multiple of every stride and so the first frame is
always sampled. -/
theorem C9_noData_unreachable (resize : Frame → Frame) (frames : List Frame)
    (step : ℕ) (hne : frames ≠ []) (_hstep : 1 ≤ step) :
    analyse_video resize (VideoSource.opened frames) step ≠
      Except.error AnalysisError.noData := by
  obtain ⟨f, fs, rfl⟩ := List.exists_cons_of_ne_nil hne
  obtain ⟨rest, hrest⟩ := sampledFrames_cons f fs step
  have hM : sampledMeans resize (f :: fs) step ≠ [] := by
    simp [sampledMeans, hrest]
  rw [analyse_video_opened_eq resize (f :: fs) step hM]
  simp

/-- Witness for C9 at a one-frame video with the default stride 8. -/
theorem C9_witness :
    analyse_video (fun f => f) (VideoSource.opened [[⟨0, 0, 0⟩]]) 8 ≠
      Except.error AnalysisError.noData :=
  C9_noData_unreachable (fun f => f) [[⟨0, 0, 0⟩]] 8
    (by simp) (by norm_num)

/-- C10: on every successful analysis the confidence is at least one
third, and in particular strictly positive, because the winning count is
the maximum of three counts summing to the positive number of sampled
frames. -/
theorem C10_confidence_at_least_third (resize : Frame → Frame)
    (frames : List Frame) (step : ℕ) (res : AnalysisResult)
    (h : analyse_video resize (VideoSource.opened frames) step = Except.ok res) :
    1/3 ≤ res.confidence ∧ 0 < res.confidence := by
  obtain ⟨hM, rfl⟩ := analyse_video_ok_inv resize frames step res h
  dsimp only
  have hsne : sampledFrames frames step ≠ [] := by
    intro hnil
    exact hM (by simp [sampledMeans, hnil])
  have hpos : 0 < (tally (sampledMeans resize frames step)).red +
      (tally (sampledMeans resize frames step)).blue +
      (tally (sampledMeans resize frames step)).other := by
    rw [tally_sum]
    simp only [sampledMeans, List.length_map]
    exact List.length_pos.mpr hsne
  have hposQ : (0 : ℚ) < ((tally (sampledMeans resize frames step)).red : ℚ) +
      (tally (sampledMeans resize frames step)).blue +
      (tally (sampledMeans resize frames step)).other := by
    exact_mod_cast hpos
  rw [countsGet_majority]
  constructor
  · rw [div_le_div_iff₀ (by norm_num) hposQ, one_mul]
    have hnat : (tally (sampledMeans resize frames step)).red +
        (tally (sampledMeans resize frames step)).blue +
        (tally (sampledMeans resize frames step)).other ≤
        (max (tally (sampledMeans resize frames step)).red
          (max (tally (sampledMeans resize frames step)).blue
            (tally (sampledMeans resize frames step)).other)) * 3 := by
      omega
    exact_mod_cast hnat
  · apply div_pos _ hposQ
    have : 0 < max (tally (sampledMeans resize frames step)).red
        (max (tally (sampledMeans resize frames step)).blue
          (tally (sampledMeans resize frames step)).other) := by
      omega
    exact_mod_cast this

/-- Witness for C10 at a one-frame solid-red video. -/
theorem C10_witness :
    (1 : ℚ)/3 ≤
      ({ avg_bgr := ⟨0, 0, 1⟩, counts := ⟨1, 0, 0⟩,
         decision := "REAL (Red tones dominant)", confidence := 1 } :
        AnalysisResult).confidence ∧
    (0 : ℚ) <
      ({ avg_bgr := ⟨0, 0, 1⟩, counts := ⟨1, 0, 0⟩,
         decision := "REAL (Red tones dominant)", confidence := 1 } :
        AnalysisResult).confidence := by
  exact C10_confidence_at_least_third (fun f => f) [[⟨0, 0, 1⟩]] 8 _
    (by with_unfolding_all decide)
